import Mathlib

/-
Verification of the RockDetector vulnerability-analysis pipeline (src/app.py).

The Python source is shallowly embedded below:
* `sha256hex` models `hashlib.sha256(text.encode()).hexdigest()` (full
  SHA-256 over the UTF-8 bytes of the string, rendered as lowercase hex);
* a `Json` inductive models the JSON values handled by the signature store,
  together with the Python container primitives (`in`, `[]`, `.get`,
  item assignment, iteration) that `compare_with_fstec` and
  `update_fstec_db` rely on, including the `TypeError` / `KeyError` /
  `AttributeError` cases, which are modelled as `Except Unit`;
* `FileState` models the five persisted files of the app, and each
  state-changing routine is given both as a list of elementary file writes
  (`..._writes`) and as the resulting state transition, so that partially
  completed executions (a crash between two writes) are intermediate
  states `applyWrites s (ws.take k)`.

sklearn's stratified splitter, metric computation and the RandomForest
prediction function are external library behaviour; they enter as explicit
function parameters, and the fitted artifacts are represented by the data
they were fitted on, which is all the claims depend on.
-/

namespace RockDetector

/-! ## SHA-256 (model of `hashlib.sha256(...).hexdigest()`) -/

/-- Truncate to a 32-bit word. -/
def w32 (n : Nat) : Nat := n % 4294967296

/-- 32-bit right rotation. -/
def rotr (n x : Nat) : Nat := w32 ((x >>> n) ||| (x <<< (32 - n)))

/-- SHA-256 `Ch` function. -/
def ch (e f g : Nat) : Nat := (e &&& f) ^^^ ((e ^^^ 4294967295) &&& g)

/-- SHA-256 `Maj` function. -/
def maj (a b c : Nat) : Nat := (a &&& b) ^^^ (a &&& c) ^^^ (b &&& c)

/-- SHA-256 big Sigma 0. -/
def bigS0 (a : Nat) : Nat := rotr 2 a ^^^ rotr 13 a ^^^ rotr 22 a

/-- SHA-256 big Sigma 1. -/
def bigS1 (e : Nat) : Nat := rotr 6 e ^^^ rotr 11 e ^^^ rotr 25 e

/-- SHA-256 small sigma 0. -/
def smallS0 (x : Nat) : Nat := rotr 7 x ^^^ rotr 18 x ^^^ (x >>> 3)

/-- SHA-256 small sigma 1. -/
def smallS1 (x : Nat) : Nat := rotr 17 x ^^^ rotr 19 x ^^^ (x >>> 10)

/-- The 64 SHA-256 round constants (FIPS 180-4, written in decimal). -/
def sha256K : List Nat :=
  [1116352408, 1899447441, 3049323471, 3921009573, 961987163, 1508970993,
   2453635748, 2870763221, 3624381080, 310598401, 607225278, 1426881987,
   1925078388, 2162078206, 2614888103, 3248222580, 3835390401, 4022224774,
   264347078, 604807628, 770255983, 1249150122, 1555081692, 1996064986,
   2554220882, 2821834349, 2952996808, 3210313671, 3336571891, 3584528711,
   113926993, 338241895, 666307205, 773529912, 1294757372, 1396182291,
   1695183700, 1986661051, 2177026350, 2456956037, 2730485921, 2820302411,
   3259730800, 3345764771, 3516065817, 3600352804, 4094571909, 275423344,
   430227734, 506948616, 659060556, 883997877, 958139571, 1322822218,
   1537002063, 1747873779, 1955562222, 2024104815, 2227730452, 2361852424,
   2428436474, 2756734187, 3204031479, 3329325298]

/-- State of the eight SHA-256 working registers. -/
structure Hash8 where
  a : Nat
  b : Nat
  c : Nat
  d : Nat
  e : Nat
  f : Nat
  g : Nat
  h : Nat
deriving Repr, DecidableEq

/-- SHA-256 initial hash value (FIPS 180-4, written in decimal). -/
def sha256H0 : Hash8 :=
  ⟨1779033703, 3144134277, 1013904242, 2773480762,
   1359893119, 2600822924, 528734635, 1541459225⟩

/-- Pack big-endian groups of four bytes into 32-bit words. -/
def bytesToWords : List Nat → List Nat
  | b0 :: b1 :: b2 :: b3 :: rest =>
      ((((b0 <<< 8) ||| b1) <<< 8 ||| b2) <<< 8 ||| b3) :: bytesToWords rest
  | _ => []

/-- Extend the 16 message words of a block by one scheduled word. -/
def extendW (w : List Nat) : List Nat :=
  w ++ [w32 (smallS1 (w.getD (w.length - 2) 0) + w.getD (w.length - 7) 0 +
             smallS0 (w.getD (w.length - 15) 0) + w.getD (w.length - 16) 0)]

/-- The 64-entry message schedule of one block. -/
def schedule (first16 : List Nat) : List Nat :=
  (List.range 48).foldl (fun w _ => extendW w) first16

/-- One SHA-256 round. -/
def sha256Round (s : Hash8) (kw : Nat × Nat) : Hash8 :=
  let t1 := w32 (s.h + bigS1 s.e + ch s.e s.f s.g + kw.1 + kw.2)
  let t2 := w32 (bigS0 s.a + maj s.a s.b s.c)
  ⟨w32 (t1 + t2), s.a, s.b, s.c, w32 (s.d + t1), s.e, s.f, s.g⟩

/-- Compress one 64-byte block into the running hash state. -/
def sha256Compress (hs : Hash8) (block : List Nat) : Hash8 :=
  let w := schedule (bytesToWords block)
  let s := (sha256K.zip w).foldl sha256Round hs
  ⟨w32 (hs.a + s.a), w32 (hs.b + s.b), w32 (hs.c + s.c), w32 (hs.d + s.d),
   w32 (hs.e + s.e), w32 (hs.f + s.f), w32 (hs.g + s.g), w32 (hs.h + s.h)⟩

/-- Process `n` 64-byte blocks of a padded message. -/
def processBlocksN : Nat → Hash8 → List Nat → Hash8
  | 0, hs, _ => hs
  | n + 1, hs, l => processBlocksN n (sha256Compress hs (l.take 64)) (l.drop 64)

/-- Process a padded message, 64 bytes at a time. -/
def processBlocks (hs : Hash8) (l : List Nat) : Hash8 :=
  processBlocksN (l.length / 64) hs l

/-- The length, in bytes, as eight big-endian bytes of the bit length. -/
def lenBytes (byteLen : Nat) : List Nat :=
  let bits := 8 * byteLen
  [bits >>> 56 % 256, bits >>> 48 % 256, bits >>> 40 % 256, bits >>> 32 % 256,
   bits >>> 24 % 256, bits >>> 16 % 256, bits >>> 8 % 256, bits % 256]

/-- SHA-256 padding: `0x80`, zeros, then the 64-bit big-endian bit length. -/
def sha256Pad (msg : List Nat) : List Nat :=
  msg ++ 0x80 :: List.replicate ((64 - (msg.length + 9) % 64) % 64) 0 ++
    lenBytes msg.length

/-- UTF-8 encoding of one character (model of Python `str.encode()`). -/
def utf8Bytes (c : Char) : List Nat :=
  let n := c.toNat
  if n < 0x80 then [n]
  else if n < 0x800 then
    [0xC0 ||| (n >>> 6), 0x80 ||| (n &&& 0x3F)]
  else if n < 0x10000 then
    [0xE0 ||| (n >>> 12), 0x80 ||| ((n >>> 6) &&& 0x3F), 0x80 ||| (n &&& 0x3F)]
  else
    [0xF0 ||| (n >>> 18), 0x80 ||| ((n >>> 12) &&& 0x3F),
     0x80 ||| ((n >>> 6) &&& 0x3F), 0x80 ||| (n &&& 0x3F)]

/-- UTF-8 bytes of a string. -/
def strBytes (s : String) : List Nat := s.toList.flatMap utf8Bytes

/-- Lowercase hex digit. -/
def hexDigit (n : Nat) : Char :=
  (String.toList "0123456789abcdef").getD n 'x'

/-- Eight lowercase hex characters of a 32-bit word. -/
def hexWord (n : Nat) : List Char :=
  [hexDigit (n >>> 28 % 16), hexDigit (n >>> 24 % 16), hexDigit (n >>> 20 % 16),
   hexDigit (n >>> 16 % 16), hexDigit (n >>> 12 % 16), hexDigit (n >>> 8 % 16),
   hexDigit (n >>> 4 % 16), hexDigit (n % 16)]

/-- `hashlib.sha256(s.encode()).hexdigest()`. -/
def sha256hex (s : String) : String :=
  let hs := processBlocks sha256H0 (sha256Pad (strBytes s))
  String.mk (hexWord hs.a ++ hexWord hs.b ++ hexWord hs.c ++ hexWord hs.d ++
             hexWord hs.e ++ hexWord hs.f ++ hexWord hs.g ++ hexWord hs.h)

/-! ## JSON values and the Python container primitives the store code uses -/

/-- JSON values, as handled by `json.load` / `json.dump`. -/
inductive Json where
  | str (s : String)
  | num (n : Int)
  | bool (b : Bool)
  | null
  | arr (elems : List Json)
  | obj (fields : List (String × Json))

/-- Python `dict.get(k)` value lookup. Our objects model Python dicts,
whose keys are distinct, so the first binding wins. -/
def objLookup (k : String) : List (String × Json) → Option Json
  | [] => none
  | (k2, v) :: rest => if k2 = k then some v else objLookup k rest

/-- `needle` occurs at the start of the character list. -/
def startsWithChars : List Char → List Char → Bool
  | [], _ => true
  | _ :: _, [] => false
  | c :: cs, d :: ds => c == d && startsWithChars cs ds

/-- `needle` occurs as a contiguous substring of the character list. -/
def substrChars (needle : List Char) : List Char → Bool
  | [] => startsWithChars needle []
  | d :: ds => startsWithChars needle (d :: ds) || substrChars needle ds

/-- Python `k in container` for a string needle `k`: key membership for a
dict, substring test for a string, element equality for a list; any other
value raises `TypeError` (not iterable). -/
def pyContains (k : String) : Json → Except Unit Bool
  | .obj kvs => .ok (objLookup k kvs).isSome
  | .str s => .ok (substrChars k.toList s.toList)
  | .arr xs => .ok (xs.any fun x => match x with | .str s2 => s2 == k | _ => false)
  | _ => .error ()

/-- Python `container["k"]`: only a dict supports string indexing; a
missing key raises `KeyError`, any other container raises `TypeError`. -/
def pyIndex (k : String) : Json → Except Unit Json
  | .obj kvs =>
      match objLookup k kvs with
      | some v => .ok v
      | none => .error ()
  | _ => .error ()

/-- Replace the value bound to `k`, or append the binding (Python dict
item assignment keeps insertion order). -/
def objSet (k : String) (v : Json) : List (String × Json) → List (String × Json)
  | [] => [(k, v)]
  | (k2, v2) :: rest => if k2 = k then (k2, v) :: rest else (k2, v2) :: objSet k v rest

/-- Python `container["k"] = v`: only dicts support string-keyed item
assignment; everything else raises `TypeError`. -/
def pySetItem (k : String) (v : Json) : Json → Except Unit Json
  | .obj kvs => .ok (.obj (objSet k v kvs))
  | _ => .error ()

/-- Python iteration `for x in j`: a list yields its elements, a string
its one-character substrings, a dict its keys; other values raise. -/
def pyIter : Json → Except Unit (List Json)
  | .arr xs => .ok xs
  | .str s => .ok (s.toList.map fun c => .str (String.mk [c]))
  | .obj kvs => .ok (kvs.map fun kv => .str kv.1)
  | _ => .error ()

/-- Python `str(value)` as used by f-string interpolation. Every theorem
below interpolates only values already known to be strings, so the
rendering of the remaining cases never matters. -/
def pyStr : Json → String
  | .str s => s
  | .num n => toString n
  | .bool b => if b then "True" else "False"
  | .null => "None"
  | .arr _ => "[list]"
  | .obj _ => "[dict]"

/-! ## Signature store (`load_fstec_db`, `compare_with_fstec`, `update_fstec_db`) -/

/-- Persisted content of `fstec_db.json`: `none` when the file is absent,
`some (.error ())` when it exists but is not valid JSON, `some (.ok j)`
when it parses to `j`. -/
abbrev FstecFile := Option (Except Unit Json)

/-- `load_fstec_db`: a missing file and a `json.JSONDecodeError` both
yield the empty list (the decode error additionally shows a UI message);
the function only reads, so the file itself is untouched either way. -/
def load_fstec_db : FstecFile → Json
  | none => .arr []
  | some (.error _) => .arr []
  | some (.ok j) => j

/-- The no-match message of `compare_with_fstec`. -/
def noMatchMsg : String := "Совпадений с БДУ ФСТЭК не найдено"

/-- The match message of `compare_with_fstec` (an f-string over the
record's `description`, `CVE` and `severity` fields). -/
def matchMsg (description cve severity : String) : String :=
  "**Совпадение с БДУ ФСТЭК найдено:**\n\n**Уязвимость:** " ++ description ++
  "\n**CVE:** " ++ cve ++ "\n**Серьезность:** " ++ severity

/-- The `for vuln in fstec_db` loop of `compare_with_fstec`:
`vuln.get("hash")` requires a dict (`AttributeError` otherwise, modelled
as `.error`), the comparison with the hex digest is `==` (false, not an
error, when the field is absent or not a string), and the first match
returns the formatted message, whose field accesses can raise `KeyError`. -/
def fstecScan (codeHash : String) : List Json → Except Unit String
  | [] => .ok noMatchMsg
  | v :: rest =>
      match v with
      | .obj kvs =>
          match objLookup "hash" kvs with
          | some (.str h2) =>
              if h2 = codeHash then do
                let d ← pyIndex "description" (.obj kvs)
                let c ← pyIndex "CVE" (.obj kvs)
                let sv ← pyIndex "severity" (.obj kvs)
                .ok (matchMsg (pyStr d) (pyStr c) (pyStr sv))
              else fstecScan codeHash rest
          | _ => fstecScan codeHash rest
      | _ => .error ()

/-- `compare_with_fstec`: hash the exact snippet text with SHA-256 and
scan the loaded store for an equal `hash` field. Pure read; uncaught
Python exceptions are the `.error` outcome. -/
def compare_with_fstec (file : FstecFile) (code_snippet : String) :
    Except Unit String := do
  let items ← pyIter (load_fstec_db file)
  fstecScan (sha256hex code_snippet) items

/-- Outcome of one `update_fstec_db` refresh attempt. -/
inductive UpdateResult where
  | updated
  | invalidFormat
  | exn
deriving Repr, DecidableEq

/-- One iteration of the refresh loop:
`if "pattern" in vuln: vuln["hash"] = hashlib.sha256(vuln["pattern"].encode()).hexdigest()`.
A non-string `pattern` value has no `.encode` (`AttributeError`). -/
def processRecord (vuln : Json) : Except Unit Json := do
  let b ← pyContains "pattern" vuln
  if b then
    let p ← pyIndex "pattern" vuln
    match p with
    | .str ps => pySetItem "hash" (.str (sha256hex ps)) vuln
    | _ => .error ()
  else
    pure vuln

/-- The `for vuln in new_db` loop: each element processed in order, the
first exception aborting the rest. -/
def processAll : List Json → Except Unit (List Json)
  | [] => .ok []
  | x :: rest => do
      let y ← processRecord x
      let ys ← processAll rest
      .ok (y :: ys)

/-- `update_fstec_db`, from the point where the fetched payload has been
parsed: a payload that is not a list is rejected with the format error
message; otherwise the elements are processed in order and the whole
store file is replaced by a single `json.dump`. An exception raised
while processing is caught by the surrounding handler before the dump
runs, so the store file is then left unchanged. -/
def update_fstec_db (payload : Json) (store : FstecFile) :
    FstecFile × UpdateResult :=
  match payload with
  | .arr xs =>
      match processAll xs with
      | .ok ys => (some (.ok (.arr ys)), .updated)
      | .error _ => (store, .exn)
  | _ => (store, .invalidFormat)

/-! ## Dataset, model artifacts and the persisted file state -/

/-- One row of `vulnerability_dataset.csv`. -/
structure Row where
  code : String
  label : String
deriving Repr, DecidableEq

/-- The fitted `TfidfVectorizer`, represented by the corpus it was fitted
on (its vocabulary and idf weights are a function of that corpus). -/
structure Vectorizer where
  fitCorpus : List String
deriving Repr, DecidableEq

/-- The fitted `RandomForestClassifier`, represented by the training data
it was fitted on (the tf-idf vectors passed to `fit` are the transform of
`trainCodes` by the vectorizer fitted on that same corpus). -/
structure MlModel where
  trainCodes : List String
  trainLabels : List String
deriving Repr, DecidableEq

/-- `metrics.json`: weighted precision / recall / f1 on the held-out
split. -/
structure Metrics where
  precision : Rat
  «recall» : Rat
  f1_score : Rat
deriving Repr, DecidableEq

/-- The persisted files the pipeline reads and writes; `none` means the
file does not exist. -/
structure FileState where
  dataset : Option (List Row)
  modelFile : Option MlModel
  vectorFile : Option Vectorizer
  metricsFile : Option Metrics
  fstecFile : FstecFile

/-- One elementary write of a persisted file. -/
inductive FileWrite where
  | dataset (rows : List Row)
  | model (m : MlModel)
  | vector (v : Vectorizer)
  | metrics (m : Metrics)
  | fstec (j : Json)

/-- Whether a write targets `metrics.json`. -/
def FileWrite.touchesMetrics : FileWrite → Bool
  | .metrics _ => true
  | _ => false

/-- Apply one write to the file state. -/
def applyWrite (s : FileState) : FileWrite → FileState
  | .dataset rows => { s with dataset := some rows }
  | .model m => { s with modelFile := some m }
  | .vector v => { s with vectorFile := some v }
  | .metrics m => { s with metricsFile := some m }
  | .fstec j => { s with fstecFile := some (.ok j) }

/-- Apply a sequence of writes in order. A routine that dies before
finishing leaves the state `applyWrites s (ws.take k)` for some `k`. -/
def applyWrites (s : FileState) (ws : List FileWrite) : FileState :=
  ws.foldl applyWrite s

/-- The persisted model/vectorizer pair stems from one training run: the
classifier was fitted on vectors of exactly the vectorizer's fit corpus. -/
def pairConsistentB (s : FileState) : Bool :=
  match s.modelFile, s.vectorFile with
  | some m, some v => v.fitCorpus == m.trainCodes
  | _, _ => true

/-! ## Training pipeline (`train_ml_model`, `auto_retrain_model`) -/

/-- `data["label"].value_counts()[l]`: occurrences of label `l`. -/
def countLabel (rows : List Row) (l : String) : Nat :=
  (rows.filter fun r => r.label == l).length

/-- The minimum-support filter of `train_ml_model`: keep exactly the rows
whose label occurs at least twice in the full dataset
(`data[data["label"].isin(class_counts[class_counts >= 2].index)]`). -/
def filterMinSupport (rows : List Row) : List Row :=
  rows.filter fun r => 2 ≤ countLabel rows r.label

/-- `data["label"].nunique()`: the number of distinct labels. -/
def nuniqueLabels (rows : List Row) : Nat :=
  ((rows.map Row.label).dedup).length

/-- The file writes performed by `train_ml_model`. `split` stands for
sklearn's stratified `train_test_split` (returning the train and the test
rows) and `evalMetrics` for the sklearn metric computation on the
held-out split; both are external library behaviour and enter as
parameters. A missing dataset file (`FileNotFoundError`) and the
fewer-than-two-classes check both return before any write; on the
success path the model pickle, the vectorizer pickle and the metrics
file are written, in that order. -/
def train_ml_model_writes (split : List Row → List Row × List Row)
    (evalMetrics : List Row → List Row → Metrics) (s : FileState) :
    List FileWrite :=
  match s.dataset with
  | none => []
  | some rows =>
      let kept := filterMinSupport rows
      if nuniqueLabels kept < 2 then []
      else
        let st := split kept
        [.model ⟨st.1.map Row.code, st.1.map Row.label⟩,
         .vector ⟨st.1.map Row.code⟩,
         .metrics (evalMetrics st.1 st.2)]

/-- `train_ml_model` as a state transition. -/
def train_ml_model (split : List Row → List Row × List Row)
    (evalMetrics : List Row → List Row → Metrics) (s : FileState) : FileState :=
  applyWrites s (train_ml_model_writes split evalMetrics s)

/-- The file writes performed by `auto_retrain_model(new_code, label)`:
the appended dataset is written first (`df.to_csv`), then the model
refitted on the entire updated dataset, then the vectorizer, in that
order. A missing dataset file starts from an empty dataframe. -/
def auto_retrain_model_writes (new_code label : String) (s : FileState) :
    List FileWrite :=
  let df2 := s.dataset.getD [] ++ [⟨new_code, label⟩]
  [.dataset df2, .model ⟨df2.map Row.code, df2.map Row.label⟩,
   .vector ⟨df2.map Row.code⟩]

/-- `auto_retrain_model` as a state transition. -/
def auto_retrain_model (new_code label : String) (s : FileState) : FileState :=
  applyWrites s (auto_retrain_model_writes new_code label s)

/-! ## ML analysis (`load_ml_model`, `analyze_code_with_ml`) -/

/-- `load_ml_model`: both pickles must load; a missing file makes the
`except FileNotFoundError` branch return `(None, None)`. -/
def load_ml_model (s : FileState) : Option (MlModel × Vectorizer) :=
  match s.modelFile, s.vectorFile with
  | some m, some v => some (m, v)
  | _, _ => none

/-- The verdict `analyze_code_with_ml` returns when no model loads. -/
def modelErrorMsg : String := "Ошибка загрузки модели"

/-- `analyze_code_with_ml`. `predict` stands for
`model.predict(vectorizer.transform([code]))[0]`, the RandomForest
prediction on the transformed snippet — external library behaviour. -/
def analyze_code_with_ml (predict : MlModel → Vectorizer → String → String)
    (s : FileState) (code_snippet : String) : String :=
  match load_ml_model s with
  | none => modelErrorMsg
  | some (m, v) =>
      let p := predict m v code_snippet
      if p ≠ "safe" then "Обнаружена уязвимость: " ++ p else "Код безопасен"

/-! ## Rule engine (`analyze_code_with_ast`) -/

/-- Python AST nodes, to the depth the walk inspects them: a `Name` node
(the only expression node with an `id` attribute), a `Call` node with its
callee and children, and every other node kind with its child nodes. -/
inductive PyNode where
  | name (id : String)
  | call (func : PyNode) (args : List PyNode)
  | other (children : List PyNode)

mutual
/-- `ast.walk`: every node of the tree (the claims are insensitive to
the visit order). -/
def PyNode.walk : PyNode → List PyNode
  | .name i => [.name i]
  | .call f args => .call f args :: (PyNode.walk f ++ walkAll args)
  | .other cs => .other cs :: walkAll cs

/-- Walk each tree of a list of nodes. -/
def walkAll : List PyNode → List PyNode
  | [] => []
  | n :: ns => PyNode.walk n ++ walkAll ns
end

/-- The per-node test of the loop: `isinstance(node, ast.Call) and
hasattr(node.func, "id") and node.func.id == "eval"`. -/
def isDeniedCall : PyNode → Bool
  | .call (.name i) _ => i == "eval"
  | _ => false

/-- The flagged verdict of `analyze_code_with_ast`. -/
def astFlaggedMsg : String :=
  "Обнаружено использование eval — потенциальная уязвимость"

/-- The clean verdict of `analyze_code_with_ast`. -/
def astCleanMsg : String := "AST-анализ: опасных конструкций не обнаружено"

/-- The caught-exception verdict of `analyze_code_with_ast`. -/
def astErrorMsg (e : String) : String := "Ошибка AST-анализа: " ++ e

/-- `analyze_code_with_ast`, over the outcome of `ast.parse` (the host
language's parser, a library external to this file): the `except` clause
renders any parse exception as a verdict, a denied call anywhere in the
walk is flagged on first sight, and otherwise the clean verdict falls
through. The Lean function is total: no outcome propagates an
exception. -/
def analyze_code_with_ast (parseResult : Except String PyNode) : String :=
  match parseResult with
  | .error e => astErrorMsg e
  | .ok tree =>
      if (PyNode.walk tree).any isDeniedCall then astFlaggedMsg else astCleanMsg

/-! ## Detection orchestrator (the "Анализ кода" branch of `main`) -/

/-- The combined per-request report: the three `st.write` lines of the
"Анализ кода" branch. -/
structure DetectionReport where
  mlVerdict : String
  astVerdict : String
  fstecVerdict : Except Unit String

/-- The "Анализ кода" branch of `main`: the three analyses run on the
same snippet, each surfaced on its own line of the report. -/
def detect (predict : MlModel → Vectorizer → String → String)
    (parse : String → Except String PyNode) (s : FileState) (code : String) :
    DetectionReport :=
  { mlVerdict := analyze_code_with_ml predict s code
    astVerdict := analyze_code_with_ast (parse code)
    fstecVerdict := compare_with_fstec s.fstecFile code }

/-! ## Helper predicates and named artifacts -/

/-- A store record is a dict carrying the three fields the match message
interpolates. -/
def hasMetaFieldsB : Json → Bool
  | .obj kvs => (objLookup "description" kvs).isSome &&
      ((objLookup "CVE" kvs).isSome && (objLookup "severity" kvs).isSome)
  | _ => false

/-- Every record of the store is a dict with the three metadata fields. -/
def wellFormedStoreB (records : List Json) : Bool := records.all hasMetaFieldsB

/-- The record's `hash` field equals the given hex digest (false — not an
error — when the record has no such field or a non-string one, exactly as
`vuln.get("hash") == code_hash` behaves). -/
def hashEqB (codeHash : String) : Json → Bool
  | .obj kvs =>
      match objLookup "hash" kvs with
      | some (.str h2) => h2 == codeHash
      | _ => false
  | _ => false

/-- A record-shaped object per the signature-database interface contract:
a dict with at least `pattern`, `description`, `CVE` and `severity`
fields. -/
def recordShapedB : Json → Bool
  | .obj kvs => (objLookup "pattern" kvs).isSome &&
      ((objLookup "description" kvs).isSome &&
       ((objLookup "CVE" kvs).isSome && (objLookup "severity" kvs).isSome))
  | _ => false

/-- The refresh payload is a list of record-shaped objects. -/
def listOfRecordsB : Json → Bool
  | .arr xs => xs.all recordShapedB
  | _ => false

/-- The payload element is a dict whose `pattern` field is a string. -/
def hasStrPatternB : Json → Bool
  | .obj kvs =>
      match objLookup "pattern" kvs with
      | some (.str _) => true
      | _ => false
  | _ => false

/-- The string value of a record's `pattern` field. -/
def patternOf : Json → String
  | .obj kvs =>
      match objLookup "pattern" kvs with
      | some (.str p) => p
      | _ => ""
  | _ => ""

/-- The dataset rows after the feedback append. -/
def retrainedRows (new_code label : String) (s : FileState) : List Row :=
  s.dataset.getD [] ++ [{ code := new_code, label := label }]

/-- The classifier `auto_retrain_model` refits on the whole updated
dataset. -/
def retrainedModel (new_code label : String) (s : FileState) : MlModel :=
  ⟨(retrainedRows new_code label s).map Row.code,
   (retrainedRows new_code label s).map Row.label⟩

/-- The vectorizer `auto_retrain_model` refits on the whole updated
dataset. -/
def retrainedVectorizer (new_code label : String) (s : FileState) : Vectorizer :=
  ⟨(retrainedRows new_code label s).map Row.code⟩

/-- The classifier `train_ml_model` fits on the train split of the
filtered dataset. -/
def trainedModel (split : List Row → List Row × List Row)
    (rows : List Row) : MlModel :=
  ⟨(split (filterMinSupport rows)).1.map Row.code,
   (split (filterMinSupport rows)).1.map Row.label⟩

/-- The vectorizer `train_ml_model` fits on the train split of the
filtered dataset. -/
def trainedVectorizer (split : List Row → List Row × List Row)
    (rows : List Row) : Vectorizer :=
  ⟨(split (filterMinSupport rows)).1.map Row.code⟩

/-! ## Concrete fixtures used by witnesses and counterexamples -/

/-- A trivial stand-in for the stratified splitter, to instantiate the
library parameter in witnesses. -/
def splitAll : List Row → List Row × List Row := fun l => (l, [])

/-- A constant stand-in for the metric computation, for witnesses. -/
def zeroMetrics : List Row → List Row → Metrics := fun _ _ => ⟨0, 0, 0⟩

/-- A file state with a one-row dataset (its only label occurs once) and
previously persisted model, vectorizer and metrics files. -/
def stateOneRow : FileState :=
  { dataset := some [⟨"print(1)", "safe"⟩]
    modelFile := some ⟨["x"], ["safe"]⟩
    vectorFile := some ⟨["x"]⟩
    metricsFile := some ⟨1, 1, 1⟩
    fstecFile := none }

/-- A state whose persisted artifact pair is consistent: both halves come
from a fit on the corpus `["print(1)"]`. -/
def statePaired : FileState :=
  { dataset := some [⟨"print(1)", "safe"⟩]
    modelFile := some ⟨["print(1)"], ["safe"]⟩
    vectorFile := some ⟨["print(1)"]⟩
    metricsFile := none
    fstecFile := none }

/-- A dataset with two labels, each occurring twice, so that it passes
the minimum-support filter and the diversity check. -/
def rowsBalanced : List Row :=
  [⟨"eval(a)", "unsafe"⟩, ⟨"eval(b)", "unsafe"⟩,
   ⟨"print(1)", "safe"⟩, ⟨"print(2)", "safe"⟩]

/-- A state whose dataset passes `train_ml_model`'s checks and whose
previously persisted artifact pair is consistent (both halves from a fit
on the corpus `["old"]`). -/
def statePairedTrain : FileState :=
  { dataset := some rowsBalanced
    modelFile := some ⟨["old"], ["safe"]⟩
    vectorFile := some ⟨["old"]⟩
    metricsFile := none
    fstecFile := none }

/-- A predict function for witnesses: everything is `"safe"`. -/
def predictSafe : MlModel → Vectorizer → String → String := fun _ _ _ => "safe"

/-- A parse function for witnesses: every snippet is a bare name. -/
def parseName : String → Except String PyNode := fun c => .ok (.name c)

/-- A file state with no files at all. -/
def stateEmpty : FileState :=
  { dataset := none, modelFile := none, vectorFile := none,
    metricsFile := none, fstecFile := none }

/-- A stored signature record whose `hash` is the digest of the exact
pattern text `"os.system(x)"`. -/
def storedOsSystem : Json :=
  .obj [("hash", .str (sha256hex "os.system(x)")),
        ("description", .str "command execution"),
        ("CVE", .str "CVE-0000-0000"),
        ("severity", .str "high")]

/-- A nonempty previously persisted store, for the refresh theorems. -/
def storePrior : FstecFile := some (.ok (.arr [.obj [("hash", .str "h0")]]))

/-! ## Theorems -/

/-- C1: on any dataset, `train_ml_model` drops every record whose label
occurs fewer than 2 times; when fewer than 2 distinct labels remain after
this filter it fails (the "only one class" error) having performed no
write at all, so the prior model, vectorizer and metrics files — indeed
the whole file state — are untouched. -/
theorem train_ml_model_insufficient_diversity_noop
    (split : List Row → List Row × List Row)
    (evalMetrics : List Row → List Row → Metrics)
    (s : FileState) (rows : List Row)
    (hds : s.dataset = some rows)
    (hdiv : nuniqueLabels (filterMinSupport rows) < 2) :
    train_ml_model_writes split evalMetrics s = [] ∧
    train_ml_model split evalMetrics s = s := by
  have hw : train_ml_model_writes split evalMetrics s = [] := by
    simp [train_ml_model_writes, hds, hdiv]
  exact ⟨hw, by simp [train_ml_model, hw, applyWrites]⟩

/-- Witness for C1 at a concrete one-row dataset. -/
theorem train_ml_model_insufficient_diversity_noop_witness :
    nuniqueLabels (filterMinSupport [⟨"print(1)", "safe"⟩]) < 2 ∧
    train_ml_model splitAll zeroMetrics stateOneRow = stateOneRow :=
  ⟨by decide, (train_ml_model_insufficient_diversity_noop splitAll zeroMetrics
      stateOneRow [⟨"print(1)", "safe"⟩] rfl (by decide)).2⟩

/-- C2: for every prior state (an absent dataset file included),
`auto_retrain_model(new_code, label)` appends exactly the one record
`(new_code, label)` after the unchanged prior records, and its very first
file write is that dataset write — so after any nonempty prefix of its
writes (that is, even if the subsequent refit or artifact dump dies) the
persisted dataset already holds the appended record. -/
theorem auto_retrain_appends_and_persists_first (s : FileState)
    (new_code label : String) :
    (auto_retrain_model_writes new_code label s).head? =
      some (.dataset (s.dataset.getD [] ++ [⟨new_code, label⟩])) ∧
    (auto_retrain_model new_code label s).dataset =
      some (s.dataset.getD [] ++ [⟨new_code, label⟩]) ∧
    ∀ k : Nat,
      (applyWrites s
          ((auto_retrain_model_writes new_code label s).take (k + 1))).dataset =
        some (s.dataset.getD [] ++ [⟨new_code, label⟩]) := by
  refine ⟨rfl, rfl, fun k => ?_⟩
  rcases k with _ | _ | n
  · rfl
  · rfl
  · rw [List.take_of_length_le (by simp [auto_retrain_model_writes])]
    rfl

/-- C9: `auto_retrain_model` leaves the metrics file exactly as it was:
none of its writes targets `metrics.json`. -/
theorem auto_retrain_preserves_metrics (s : FileState)
    (new_code label : String) :
    (auto_retrain_model new_code label s).metricsFile = s.metricsFile ∧
    (auto_retrain_model_writes new_code label s).all
      (fun w => ! w.touchesMetrics) = true :=
  ⟨rfl, rfl⟩

/-- C3 counterexample: the two halves of the model artifact are NOT
persisted atomically as one unit, at either write site. Starting from a
consistent pair, after the first two of `auto_retrain_model`'s three
sequential writes (the dataset and the model pickle, but not yet the
vectorizer pickle) the persisted state pairs the classifier of the new
run with the vocabulary of the old run; likewise, after the first of
`train_ml_model`'s three sequential writes (the model pickle, but not
yet the vectorizer pickle) the persisted state mixes the two runs —
precisely the mix the claim says can never be observed. -/
theorem model_vector_not_atomic_cex :
    (pairConsistentB statePaired = true ∧
     pairConsistentB (applyWrites statePaired
       ((auto_retrain_model_writes "eval(x)" "unsafe" statePaired).take 2)) = false) ∧
    (pairConsistentB statePairedTrain = true ∧
     pairConsistentB (applyWrites statePairedTrain
       ((train_ml_model_writes splitAll zeroMetrics statePairedTrain).take 1)) = false) :=
  ⟨⟨rfl, rfl⟩, ⟨rfl, rfl⟩⟩

/-- C3 amended: at both write sites the two halves of the model artifact
are persisted by two separate sequential writes — model pickle first,
then vectorizer pickle — so between those writes the persisted state
pairs the new classifier with the prior vocabulary file; only once both
writes have completed is the persisted pair consistent again. The first
block settles `auto_retrain_model` (for every prior state); the second
settles `train_ml_model` on its success path (for every dataset passing
the diversity check). -/
theorem model_vector_sequential_writes
    (split : List Row → List Row × List Row)
    (evalMetrics : List Row → List Row → Metrics)
    (s : FileState) (new_code label : String) :
    (auto_retrain_model_writes new_code label s =
       [.dataset (retrainedRows new_code label s),
        .model (retrainedModel new_code label s),
        .vector (retrainedVectorizer new_code label s)] ∧
     (retrainedVectorizer new_code label s).fitCorpus =
       (retrainedModel new_code label s).trainCodes ∧
     (applyWrites s ((auto_retrain_model_writes new_code label s).take 2)).modelFile
       = some (retrainedModel new_code label s) ∧
     (applyWrites s ((auto_retrain_model_writes new_code label s).take 2)).vectorFile
       = s.vectorFile ∧
     pairConsistentB (auto_retrain_model new_code label s) = true) ∧
    (∀ rows, s.dataset = some rows →
     ¬ nuniqueLabels (filterMinSupport rows) < 2 →
     train_ml_model_writes split evalMetrics s =
       [.model (trainedModel split rows),
        .vector (trainedVectorizer split rows),
        .metrics (evalMetrics (split (filterMinSupport rows)).1
                              (split (filterMinSupport rows)).2)] ∧
     (trainedVectorizer split rows).fitCorpus =
       (trainedModel split rows).trainCodes ∧
     (applyWrites s ((train_ml_model_writes split evalMetrics s).take 1)).modelFile
       = some (trainedModel split rows) ∧
     (applyWrites s ((train_ml_model_writes split evalMetrics s).take 1)).vectorFile
       = s.vectorFile ∧
     pairConsistentB (train_ml_model split evalMetrics s) = true) := by
  constructor
  · refine ⟨rfl, rfl, rfl, rfl, ?_⟩
    simp [pairConsistentB, auto_retrain_model, auto_retrain_model_writes,
      applyWrites, applyWrite]
  · intro rows hds hdiv
    have hw : train_ml_model_writes split evalMetrics s =
        [.model (trainedModel split rows),
         .vector (trainedVectorizer split rows),
         .metrics (evalMetrics (split (filterMinSupport rows)).1
                               (split (filterMinSupport rows)).2)] := by
      simp [train_ml_model_writes, hds, hdiv, trainedModel, trainedVectorizer]
    refine ⟨hw, rfl, ?_, ?_, ?_⟩
    · rw [hw]
      rfl
    · rw [hw]
      rfl
    · rw [train_ml_model, hw]
      simp [pairConsistentB, applyWrites, applyWrite, trainedModel,
        trainedVectorizer]

/-- Witness for C3 amended at the concrete balanced dataset: after
`train_ml_model`'s first write only, the old vectorizer file is still in
place, and after all writes the persisted pair is consistent. -/
theorem model_vector_sequential_writes_witness :
    (applyWrites statePairedTrain
        ((train_ml_model_writes splitAll zeroMetrics statePairedTrain).take 1)).vectorFile
      = statePairedTrain.vectorFile ∧
    pairConsistentB (train_ml_model splitAll zeroMetrics statePairedTrain) = true :=
  ⟨((model_vector_sequential_writes splitAll zeroMetrics statePairedTrain
      "eval(x)" "unsafe").2 rowsBalanced rfl (by decide)).2.2.2.1,
   ((model_vector_sequential_writes splitAll zeroMetrics statePairedTrain
      "eval(x)" "unsafe").2 rowsBalanced rfl (by decide)).2.2.2.2⟩

/-- C4: `analyze_code_with_ast` is total over every parse outcome — no
exception escapes — and its verdict is exactly one of three: the rendered
parse error when `ast.parse` raised, the flagged verdict when the parsed
tree contains a call whose callee is the bare identifier `eval`, and the
clean verdict when it contains no such call. -/
theorem analyze_ast_trichotomy (parseResult : Except String PyNode) :
    (∃ e, parseResult = .error e ∧
      analyze_code_with_ast parseResult = astErrorMsg e) ∨
    (∃ t, parseResult = .ok t ∧ (PyNode.walk t).any isDeniedCall = true ∧
      analyze_code_with_ast parseResult = astFlaggedMsg) ∨
    (∃ t, parseResult = .ok t ∧ (PyNode.walk t).any isDeniedCall = false ∧
      analyze_code_with_ast parseResult = astCleanMsg) := by
  match parseResult with
  | .error e => exact Or.inl ⟨e, rfl, rfl⟩
  | .ok t =>
      cases hda : (PyNode.walk t).any isDeniedCall with
      | true =>
          exact Or.inr (Or.inl ⟨t, rfl, hda, by
            simp [analyze_code_with_ast, hda]⟩)
      | false =>
          exact Or.inr (Or.inr ⟨t, rfl, hda, by
            simp [analyze_code_with_ast, hda]⟩)

/-- C6: the "Анализ кода" flow runs all three strategies on the snippet
and surfaces each of the three results in the report — the rule-engine
and signature verdicts are computed whatever the two other strategies
return (no short-circuit on a positive) — and when no model artifact
loads the ML strategy reports its model-unavailable verdict while the
two other verdicts are still those of their standalone analyses. -/
theorem detect_runs_all_three
    (predict : MlModel → Vectorizer → String → String)
    (parse : String → Except String PyNode) (s : FileState) (code : String) :
    (detect predict parse s code).astVerdict =
      analyze_code_with_ast (parse code) ∧
    (detect predict parse s code).fstecVerdict =
      compare_with_fstec s.fstecFile code ∧
    (detect predict parse s code).mlVerdict =
      analyze_code_with_ml predict s code ∧
    (load_ml_model s = none →
      (detect predict parse s code).mlVerdict = modelErrorMsg) := by
  refine ⟨rfl, rfl, rfl, fun hnone => ?_⟩
  simp [detect, analyze_code_with_ml, hnone]

/-- Witness for C6 on the empty state: no model is loaded, the ML verdict
is the model-unavailable message, and the rule-engine and signature
verdicts are those of the standalone analyses. -/
theorem detect_runs_all_three_witness :
    (detect predictSafe parseName stateEmpty "print(1)").mlVerdict =
      modelErrorMsg ∧
    (detect predictSafe parseName stateEmpty "print(1)").astVerdict =
      analyze_code_with_ast (parseName "print(1)") ∧
    (detect predictSafe parseName stateEmpty "print(1)").fstecVerdict =
      compare_with_fstec stateEmpty.fstecFile "print(1)" :=
  ⟨(detect_runs_all_three predictSafe parseName stateEmpty "print(1)").2.2.2 rfl,
   (detect_runs_all_three predictSafe parseName stateEmpty "print(1)").1,
   (detect_runs_all_three predictSafe parseName stateEmpty "print(1)").2.1⟩

/-! ## Store scan lemmas -/

/-- A match message is never the no-match message, whatever the
interpolated fields: the fixed parts alone are already longer. -/
theorem matchMsg_ne_noMatchMsg (d c v : String) : matchMsg d c v ≠ noMatchMsg := by
  intro h
  have hlen := congrArg String.length h
  simp only [matchMsg, noMatchMsg, String.length_append] at hlen
  have h1 : 40 <
      ("**Совпадение с БДУ ФСТЭК найдено:**\n\n**Уязвимость:** " : String).length := by
    decide
  have h2 : ("Совпадений с БДУ ФСТЭК не найдено" : String).length < 40 := by
    decide
  omega

/-- Over well-formed records, the scan returns the no-match message when
no record's `hash` field equals the digest. -/
theorem fstecScan_eq_noMatch (codeHash : String) :
    ∀ records, wellFormedStoreB records = true →
    records.all (fun r => ! hashEqB codeHash r) = true →
    fstecScan codeHash records = .ok noMatchMsg
  | [], _, _ => rfl
  | r :: rest, hwf, hall => by
      have hwfr : hasMetaFieldsB r = true := by
        have := hwf
        simp [wellFormedStoreB, List.all_cons] at this
        exact this.1
      have hwfrest : wellFormedStoreB rest = true := by
        have := hwf
        simp [wellFormedStoreB, List.all_cons] at this
        simpa [wellFormedStoreB] using this.2
      have hnr : hashEqB codeHash r = false := by
        have := hall
        simp [List.all_cons] at this
        simpa using this.1
      have hallrest : rest.all (fun x => ! hashEqB codeHash x) = true := by
        have := hall
        simp [List.all_cons] at this
        simpa using this.2
      have ihrest := fstecScan_eq_noMatch codeHash rest hwfrest hallrest
      match r, hwfr, hnr with
      | .obj kvs, _, hnr =>
        cases hl : objLookup "hash" kvs with
        | none => simpa [fstecScan, hl] using ihrest
        | some val =>
          cases val with
          | str h2 =>
              have hne : ¬ (h2 = codeHash) := by
                simp [hashEqB, hl] at hnr
                exact hnr
              simpa [fstecScan, hl, hne] using ihrest
          | num n => simpa [fstecScan, hl] using ihrest
          | bool b => simpa [fstecScan, hl] using ihrest
          | null => simpa [fstecScan, hl] using ihrest
          | arr xs => simpa [fstecScan, hl] using ihrest
          | obj kvs2 => simpa [fstecScan, hl] using ihrest

/-- Over well-formed records, a record whose `hash` field equals the
digest makes the scan return the formatted match message. -/
theorem fstecScan_match (codeHash : String) :
    ∀ records, wellFormedStoreB records = true →
    records.any (hashEqB codeHash) = true →
    ∃ d c v, fstecScan codeHash records = .ok (matchMsg d c v)
  | [], _, hany => by simp at hany
  | r :: rest, hwf, hany => by
      have hwfr : hasMetaFieldsB r = true := by
        have := hwf
        simp [wellFormedStoreB, List.all_cons] at this
        exact this.1
      have hwfrest : wellFormedStoreB rest = true := by
        have := hwf
        simp [wellFormedStoreB, List.all_cons] at this
        simpa [wellFormedStoreB] using this.2
      cases hr : hashEqB codeHash r with
      | true =>
          match r, hwfr, hr with
          | .obj kvs, hwfr, hr =>
            have hl : ∃ h2, objLookup "hash" kvs = some (.str h2) ∧
                h2 = codeHash := by
              revert hr
              cases hl2 : objLookup "hash" kvs with
              | none => simp [hashEqB, hl2]
              | some val =>
                cases val <;> simp [hashEqB, hl2]
            obtain ⟨h2, hl2, hh2⟩ := hl
            have hmeta := hwfr
            simp only [hasMetaFieldsB, Bool.and_eq_true] at hmeta
            obtain ⟨vd, hd⟩ := Option.isSome_iff_exists.mp hmeta.1
            obtain ⟨vc, hc⟩ := Option.isSome_iff_exists.mp hmeta.2.1
            obtain ⟨vs, hv⟩ := Option.isSome_iff_exists.mp hmeta.2.2
            refine ⟨pyStr vd, pyStr vc, pyStr vs, ?_⟩
            simp only [fstecScan, hl2, hh2, if_pos, pyIndex, hd, hc, hv]
            rfl
      | false =>
          have hanyrest : rest.any (hashEqB codeHash) = true := by
            have := hany
            simp [List.any_cons, hr] at this
            simpa using this
          obtain ⟨d, c, v, hscan⟩ :=
            fstecScan_match codeHash rest hwfrest hanyrest
          refine ⟨d, c, v, ?_⟩
          match r, hr with
          | .obj kvs, hr =>
            cases hl : objLookup "hash" kvs with
            | none => simpa [fstecScan, hl] using hscan
            | some val =>
              cases val with
              | str h2 =>
                  have hne : ¬ (h2 = codeHash) := by
                    simp [hashEqB, hl] at hr
                    exact hr
                  simpa [fstecScan, hl, hne] using hscan
              | num n => simpa [fstecScan, hl] using hscan
              | bool b => simpa [fstecScan, hl] using hscan
              | null => simpa [fstecScan, hl] using hscan
              | arr xs => simpa [fstecScan, hl] using hscan
              | obj kvs2 => simpa [fstecScan, hl] using hscan

set_option maxRecDepth 1000000 in
/-- C5: over any well-formed store, `compare_with_fstec` returns the
no-match verdict exactly when no stored record's `hash` field equals the
SHA-256 hex digest of the exact snippet text, and returns the formatted
match message whenever some record's `hash` equals that digest. The last
conjunct instantiates the limitation the spec calls out: a store holding
the hash of `"os.system(x)"` does not match the query `"os.system(x) "`
that differs by one trailing space. -/
theorem compare_with_fstec_match_iff (records : List Json) (snippet : String)
    (hwf : wellFormedStoreB records = true) :
    (compare_with_fstec (some (.ok (.arr records))) snippet = .ok noMatchMsg ↔
      records.all (fun r => ! hashEqB (sha256hex snippet) r) = true) ∧
    (records.any (hashEqB (sha256hex snippet)) = true →
      ∃ d c v, compare_with_fstec (some (.ok (.arr records))) snippet =
        .ok (matchMsg d c v)) ∧
    compare_with_fstec (some (.ok (.arr [storedOsSystem]))) "os.system(x) " =
      .ok noMatchMsg := by
  have hcompare : compare_with_fstec (some (.ok (.arr records))) snippet =
      fstecScan (sha256hex snippet) records := rfl
  refine ⟨⟨fun hnm => ?_, fun hall => ?_⟩, fun hany => ?_, ?_⟩
  · cases hany : records.any (hashEqB (sha256hex snippet)) with
    | false =>
        refine List.all_eq_true.mpr fun x hx => ?_
        have hfx := List.any_eq_false.mp hany x hx
        simp [hfx]
    | true =>
        obtain ⟨d, c, v, hm⟩ :=
          fstecScan_match (sha256hex snippet) records hwf hany
        rw [hcompare, hm] at hnm
        exact absurd (Except.ok.inj hnm) (matchMsg_ne_noMatchMsg d c v)
  · rw [hcompare]
    exact fstecScan_eq_noMatch (sha256hex snippet) records hwf hall
  · rw [hcompare]
    exact fstecScan_match (sha256hex snippet) records hwf hany
  · exact fstecScan_eq_noMatch (sha256hex "os.system(x) ") [storedOsSystem]
      (by decide) (by decide)

set_option maxRecDepth 1000000 in
/-- Witness for C5: the store holding `storedOsSystem` matches the exact
query `"os.system(x)"` with the formatted match message. -/
theorem compare_with_fstec_match_iff_witness :
    wellFormedStoreB [storedOsSystem] = true ∧
    ∃ d c v, compare_with_fstec (some (.ok (.arr [storedOsSystem])))
      "os.system(x)" = .ok (matchMsg d c v) :=
  ⟨by decide,
   (compare_with_fstec_match_iff [storedOsSystem] "os.system(x)"
      (by decide)).2.1 (by decide)⟩

/-- C10: when `fstec_db.json` exists but holds invalid JSON,
`load_fstec_db` swallows the decode error and yields the empty store (the
function only reads, so the corrupted file stays in place as is), and a
lookup over that state returns the no-match verdict instead of raising. -/
theorem corrupt_fstec_db_lookup_no_match (snippet : String) :
    load_fstec_db (some (.error ())) = .arr [] ∧
    compare_with_fstec (some (.error ())) snippet = .ok noMatchMsg :=
  ⟨rfl, rfl⟩

/-- C7 counterexample: the payload `["xyz"]` is a list but not a list of
record-shaped objects, yet `update_fstec_db` does not reject it: it
replaces the previously persisted store with it and reports success —
the shape of the elements is never validated. -/
theorem update_fstec_accepts_malformed_cex :
    listOfRecordsB (.arr [.str "xyz"]) = false ∧
    update_fstec_db (.arr [.str "xyz"]) storePrior =
      (some (.ok (.arr [.str "xyz"])), .updated) ∧
    (some (.ok (.arr [.str "xyz"])) : FstecFile) ≠ storePrior :=
  ⟨rfl, rfl, by intro h; simp [storePrior] at h⟩

/-- C7 amended: `update_fstec_db` rejects with the invalid-format error
exactly the payloads that are not lists, and whenever it does not succeed
(rejection or an exception raised mid-processing) the previously
persisted store is left completely unchanged; but a list payload is
accepted without any validation of its elements' record shape. -/
theorem update_fstec_rejects_only_nonlist (payload : Json) (store : FstecFile) :
    ((update_fstec_db payload store).2 ≠ .updated →
      (update_fstec_db payload store).1 = store) ∧
    ((∀ xs, payload ≠ .arr xs) →
      update_fstec_db payload store = (store, .invalidFormat)) := by
  constructor
  · intro hne
    match payload with
    | .arr xs =>
        cases hm : processAll xs with
        | ok ys => exact absurd (by simp [update_fstec_db, hm]) hne
        | error e => simp [update_fstec_db, hm]
    | .str s => rfl
    | .num n => rfl
    | .bool b => rfl
    | .null => rfl
    | .obj kvs => rfl
  · intro hna
    match payload with
    | .arr xs => exact absurd rfl (hna xs)
    | .str s => rfl
    | .num n => rfl
    | .bool b => rfl
    | .null => rfl
    | .obj kvs => rfl

/-- Witness for C7 amended at the non-list payload `null`: rejected with
the invalid-format outcome and the store unchanged. -/
theorem update_fstec_rejects_only_nonlist_witness :
    update_fstec_db .null storePrior = (storePrior, .invalidFormat) ∧
    (update_fstec_db .null storePrior).1 = storePrior :=
  ⟨(update_fstec_rejects_only_nonlist .null storePrior).2 (fun xs h => nomatch h),
   (update_fstec_rejects_only_nonlist .null storePrior).1 (by decide)⟩

/-- Looking up the key a set just wrote finds exactly the written value. -/
theorem objLookup_objSet_self (k : String) (v : Json) :
    ∀ kvs, objLookup k (objSet k v kvs) = some v
  | [] => by simp [objSet, objLookup]
  | (k2, v2) :: rest => by
      by_cases hk : k2 = k
      · simp [objSet, hk, objLookup]
      · simp [objSet, hk, objLookup, objLookup_objSet_self k v rest]

/-- Processing a dict record that carries a string `pattern` attaches the
SHA-256 hex digest of that pattern under `hash`. -/
theorem processRecord_obj (kvs : List (String × Json)) (p : String)
    (hp : objLookup "pattern" kvs = some (.str p)) :
    processRecord (.obj kvs) =
      .ok (.obj (objSet "hash" (.str (sha256hex p)) kvs)) := by
  simp only [processRecord, pyContains, hp, Option.isSome_some, pyIndex,
    pySetItem]
  rfl

/-- Element-wise behaviour of the refresh loop on records that all carry
a string `pattern`: it succeeds and every output record's `hash` field is
the digest of the corresponding input record's pattern. -/
theorem processAll_spec :
    ∀ xs : List Json, xs.all hasStrPatternB = true →
    ∃ ys, processAll xs = .ok ys ∧
      List.Forall₂ (fun x y => ∃ kvs, y = Json.obj kvs ∧
        objLookup "hash" kvs = some (.str (sha256hex (patternOf x)))) xs ys
  | [], _ => ⟨[], rfl, List.Forall₂.nil⟩
  | x :: rest, hall => by
      have hx : hasStrPatternB x = true := by
        have := hall
        simp [List.all_cons] at this
        exact this.1
      have hrest : rest.all hasStrPatternB = true := by
        have := hall
        simp [List.all_cons] at this
        simpa using this.2
      obtain ⟨ys, hys, hfa⟩ := processAll_spec rest hrest
      match x, hx with
      | .obj kvs, hx =>
        obtain ⟨p, hp⟩ : ∃ p, objLookup "pattern" kvs = some (.str p) := by
          revert hx
          cases hpp : objLookup "pattern" kvs with
          | none => simp [hasStrPatternB, hpp]
          | some val => cases val <;> simp [hasStrPatternB, hpp]
        refine ⟨.obj (objSet "hash" (.str (sha256hex p)) kvs) :: ys, ?_, ?_⟩
        · simp only [processAll, processRecord_obj kvs p hp, hys]
          rfl
        · refine List.Forall₂.cons ⟨objSet "hash" (.str (sha256hex p)) kvs,
            rfl, ?_⟩ hfa
          rw [objLookup_objSet_self]
          simp [patternOf, hp]

/-- C8: a refresh whose list payload consists of records each carrying a
string `pattern` field succeeds, replaces the store wholesale, and every
persisted record carries a `hash` field equal to the SHA-256 hex digest
of that record's `pattern`. -/
theorem update_fstec_attaches_hashes (store : FstecFile) (xs : List Json)
    (hall : xs.all hasStrPatternB = true) :
    ∃ ys, update_fstec_db (.arr xs) store = (some (.ok (.arr ys)), .updated) ∧
      List.Forall₂ (fun x y => ∃ kvs, y = Json.obj kvs ∧
        objLookup "hash" kvs = some (.str (sha256hex (patternOf x)))) xs ys := by
  obtain ⟨ys, hys, hfa⟩ := processAll_spec xs hall
  exact ⟨ys, by simp [update_fstec_db, hys], hfa⟩

/-- Witness for C8 at a one-record payload. -/
theorem update_fstec_attaches_hashes_witness :
    [Json.obj [("pattern", Json.str "import os")]].all hasStrPatternB = true ∧
    ∃ ys, update_fstec_db (.arr [.obj [("pattern", .str "import os")]]) none =
      (some (.ok (.arr ys)), .updated) ∧
      List.Forall₂ (fun x y => ∃ kvs, y = Json.obj kvs ∧
          objLookup "hash" kvs = some (.str (sha256hex (patternOf x))))
        [Json.obj [("pattern", Json.str "import os")]] ys :=
  ⟨by decide, update_fstec_attaches_hashes none
    [.obj [("pattern", .str "import os")]] (by decide)⟩

end RockDetector
